import Mathlib

/-!
Verification development for the pyraw repository (src/pyraw/rawimage.py).

The Python source is shallowly embedded: byte buffers are `List Nat`
(each entry a byte value), text streams are `List Char`, numpy 2-D
arrays are `List (List Nat)`, and fallible Python code is modelled in
`Except PyError`.
-/

namespace PyRaw

/-- The Python exception classes that the pipeline can raise, carrying
their message text. -/
inductive PyError where
  | valueError : String → PyError
  | attributeError : String → PyError
  | keyError : String → PyError
  | indexError : String → PyError
  | ioError : String → PyError
  | nameError : String → PyError
deriving DecidableEq

/-! ## The PGM reader (`read_pgm`, rawimage.py lines 18-37)

`read_pgm` matches the byte regex

  `^P5\s(?:\s*#.*[\r\n])*(\d+)\s(?:\s*#.*[\r\n])*(\d+)\s(?:\s*#.*[\r\n])*(\d+)\s(?:\s*#.*[\r\n]\s)*`

against the whole file buffer and then calls `np.frombuffer` with
`dtype = u1` when `int(maxval) < 256` and big-endian `u2` otherwise,
`count = int(width)*int(height)` and `offset = len(header)`, reshaping
to `(height, width)`.  The regex is embedded below; the only
backtracking the pattern can actually perform is the choice of the
`[\r\n]` terminator inside a comment line, and that choice is explored
explicitly (`termCandidates` lists the feasible terminator positions in
the greedy, longest-first order). -/

/-- Python regex byte class `\s`: space, tab, newline, carriage return,
form feed, vertical tab. -/
def isSpaceByte (b : Nat) : Bool :=
  b = 32 || b = 9 || b = 10 || b = 13 || b = 12 || b = 11

/-- Python regex byte class `\d`. -/
def isDigitByte (b : Nat) : Bool :=
  48 ≤ b && b ≤ 57

/-- Maximal run of whitespace bytes removed from the front (regex `\s*`). -/
def dropSpaces : List Nat → List Nat
  | [] => []
  | b :: rest => if isSpaceByte b then dropSpaces rest else b :: rest

/-- Split a maximal leading digit run (regex `\d+` is greedy and nothing
after it can match a digit, so the match is deterministic). -/
def takeDigits : List Nat → (List Nat × List Nat)
  | [] => ([], [])
  | b :: rest =>
    if isDigitByte b then
      let p := takeDigits rest
      (b :: p.1, p.2)
    else ([], b :: rest)

/-- Python `int` of a run of ASCII digit bytes. -/
def intOfDigits (ds : List Nat) : Nat :=
  ds.foldl (fun a d => 10 * a + (d - 48)) 0

/-- Feasible end positions for `.*[\r\n]` applied to the bytes after a
`#`: the terminator can be any `\r` before the first `\n`, or that
first `\n` itself (`.` never matches `\n`).  Listed longest-first,
which is the order a greedy `.*` explores them in. -/
def termCandidates (l : List Nat) : List Nat :=
  let bound := match l.findIdx? (fun b => b = 10) with
    | some i => i + 1
    | none => l.length
  ((List.range bound).filter (fun j => l.getD j 0 = 10 || l.getD j 0 = 13)).reverse

/-- The part of the header regex after `P5\s`: for `k+1` remaining
numeric fields, match `(?:\s*#.*[\r\n])*(\d+)\s` and recurse; for `k = 0`
match the trailing `(?:\s*#.*[\r\n]\s)*` group.  Returns the digit runs
of the numeric fields and the unconsumed suffix of the buffer.  A
comment iteration is attempted exactly when `\s*` lands on a `#`
(otherwise the following `\d+` could only see whitespace or `#`, so
zero iterations is forced), and each terminator candidate is tried in
greedy order against the whole continuation. -/
def parseFrom : Nat → Nat → List Nat → Option (List (List Nat) × List Nat)
  | 0, _, _ => none
  | fuel + 1, 0, l =>
    some ([], skipTrailing (fuel + 1) l)
  | fuel + 1, k + 1, l =>
    match dropSpaces l with
    | 35 :: content =>
      (termCandidates content).findSome? (fun j => parseFrom fuel (k + 1) (content.drop (j + 1)))
    | _ =>
      match takeDigits l with
      | ([], _) => none
      | (d :: ds, r) =>
        match r with
        | [] => none
        | b :: r2 =>
          if isSpaceByte b then
            match parseFrom fuel k r2 with
            | none => none
            | some (dss, rest) => some ((d :: ds) :: dss, rest)
          else none
where
  /-- The trailing `(?:\s*#.*[\r\n]\s)*` group: like a comment line but
  each iteration must additionally consume one whitespace byte after the
  terminator.  Nothing follows the group, so the first (longest)
  feasible terminator is committed to. -/
  skipTrailing : Nat → List Nat → List Nat
    | 0, l => l
    | fuel + 1, l =>
      match dropSpaces l with
      | 35 :: content =>
        match (termCandidates content).find?
            (fun j => ((content.get? (j + 1)).map isSpaceByte).getD false) with
        | some j => skipTrailing fuel (content.drop (j + 2))
        | none => l
      | _ => l

/-- The whole header regex `^P5\s...`: anchored at the start of the
buffer.  On success returns `(header length, width, height, maxval)`,
mirroring `len(header)` and `int(width)`, `int(height)`, `int(maxval)`. -/
def pgmMatch (buffer : List Nat) : Option (Nat × Nat × Nat × Nat) :=
  match buffer with
  | b0 :: b1 :: b :: rest =>
    if b0 = 80 ∧ b1 = 53 ∧ isSpaceByte b then
      match parseFrom (2 * buffer.length + 8) 3 rest with
      | some ([wds, hds, mds], rest2) =>
        some (buffer.length - rest2.length, intOfDigits wds, intOfDigits hds, intOfDigits mds)
      | _ => none
    else none
  | _ => none

/-- Big-endian 16-bit samples: numpy dtype `>u2` over a byte list. -/
def pairsBE : List Nat → List Nat
  | b0 :: b1 :: rest => (256 * b0 + b1) :: pairsBE rest
  | _ => []

/-- `np.frombuffer(bytes, dtype, count)`: `count` samples of 1 byte when
`maxval < 256` and of 2 big-endian bytes otherwise; `ValueError` (here
`none`) when the buffer holds fewer than `count` samples. -/
def bytesToSamples (maxval : Nat) (bytes : List Nat) (count : Nat) : Option (List Nat) :=
  if maxval < 256 then
    if count ≤ bytes.length then some (bytes.take count) else none
  else
    if 2 * count ≤ bytes.length then some (pairsBE (bytes.take (2 * count))) else none

/-- `.reshape((height, width))` of a flat sample list that holds exactly
`width*height` samples. -/
def chunkRows (w : Nat) : Nat → List Nat → List (List Nat)
  | 0, _ => []
  | h + 1, l => l.take w :: chunkRows w h (l.drop w)

/-- `read_pgm` on the file's byte buffer (rawimage.py lines 18-37): a
failed header match raises `ValueError("Not a raw PGM file")`; a
successful one reads `width*height` samples at `offset = len(header)`
(numpy raises its own `ValueError` when the buffer is too short) and
reshapes them to `(height, width)`. -/
def read_pgm (buffer : List Nat) : Except PyError (List (List Nat)) :=
  match pgmMatch buffer with
  | none => .error (.valueError "Not a raw PGM file")
  | some (off, w, h, maxval) =>
    match bytesToSamples maxval (buffer.drop off) (w * h) with
    | none => .error (.valueError "buffer is smaller than requested size")
    | some samples => .ok (chunkRows w h samples)

/-! ## The metadata extractor (`raw_to_fits`, rawimage.py lines 95-134)

The metadata text stream (stdout of `dcraw -i -v`) is scraped with
`re.search` calls of the form `(?<=LABEL).*` — a fixed lookbehind and a
greedy dot that stops at the first newline — two of them additionally
carrying a lookahead (`(?=sec)`, `(?=mm)`).  `m.group(0)` on a failed
search raises `AttributeError` (`m` is `None`). -/

/-- Python `\s` over text. -/
def isSpaceChar (c : Char) : Bool :=
  c = ' ' || c = '\t' || c = '\n' || c = '\r' || c = Char.ofNat 12 || c = Char.ofNat 11

/-- `re.search('(?<=LABEL).*', text)`: the leftmost position where an
occurrence of `LABEL` ends, and the run of non-newline characters from
there (group 0 of the match). -/
def searchAfter (label text : List Char) : Option (List Char) :=
  match (List.range (text.length + 1)).find? (fun i => label.isSuffixOf (text.take i)) with
  | none => none
  | some i => some ((text.drop i).takeWhile (fun c => c ≠ '\n'))

/-- `re.search('(?<=LABEL).*(?=STOP)', text)`: positions after an
occurrence of `LABEL` are tried left to right; at each, the greedy `.*`
takes the longest non-newline run that is immediately followed by
`STOP` (the lookahead may run past the newline). -/
def searchAfterBefore (label stop text : List Char) : Option (List Char) :=
  ((List.range (text.length + 1)).filter (fun i => label.isSuffixOf (text.take i))).findSome?
    (fun i =>
      let line := (text.drop i).takeWhile (fun c => c ≠ '\n')
      match (List.range (line.length + 1)).reverse.find?
          (fun d => stop.isPrefixOf (text.drop (i + d))) with
      | none => none
      | some d => some (line.take d))

/-- Whether `pat` occurs as a contiguous substring of `text`. -/
def containsSub (text pat : List Char) : Bool :=
  (List.range (text.length + 1)).any (fun i => pat.isPrefixOf (text.drop i))

/-- `m.group(0)` where `m` is the result of an `re.search`: a failed
search yields `None`, on which the attribute access raises. -/
def reGroup (o : Option (List Char)) : Except PyError (List Char) :=
  match o with
  | none => .error (.attributeError "NoneType object has no attribute group")
  | some g => .ok g

/-- Python `str.strip()`. -/
def stripChars (l : List Char) : List Char :=
  ((l.dropWhile isSpaceChar).reverse.dropWhile isSpaceChar).reverse

/-- Python `str.split()` with no argument: split on whitespace runs,
dropping empty fields (fuel-driven; one character is consumed per step). -/
def pySplitF : Nat → List Char → List (List Char)
  | 0, _ => []
  | _ + 1, [] => []
  | fuel + 1, c :: rest =>
    if isSpaceChar c then pySplitF fuel rest
    else ((c :: rest).takeWhile (fun x => !isSpaceChar x)) ::
      pySplitF fuel ((c :: rest).dropWhile (fun x => !isSpaceChar x))

/-- Python `str.split()`. -/
def pySplit (l : List Char) : List (List Char) :=
  pySplitF l.length l

/-- Python list indexing: `IndexError` past the end. -/
def pyIndex {α : Type} (l : List α) (i : Nat) : Except PyError α :=
  match l.get? i with
  | some x => .ok x
  | none => .error (.indexError "list index out of range")

/-- Python `int(s)` on the whitespace-free tokens produced by `split`:
a nonempty all-digit token parses, anything else raises `ValueError`. -/
def pyIntNat (s : List Char) : Except PyError Nat :=
  if !s.isEmpty && s.all Char.isDigit then
    .ok (s.foldl (fun a c => 10 * a + (c.toNat - 48)) 0)
  else .error (.valueError "invalid literal for int with base 10")

/-- The 12-entry month table (`months` in rawimage.py line 98). -/
def monthsTable : List (List Char × Nat) :=
  [("Jan".data, 1), ("Feb".data, 2), ("Mar".data, 3), ("Apr".data, 4),
   ("May".data, 5), ("Jun".data, 6), ("Jul".data, 7), ("Aug".data, 8),
   ("Sep".data, 9), ("Oct".data, 10), ("Nov".data, 11), ("Dec".data, 12)]

/-- Python dict lookup `months[s]`: `KeyError` when absent. -/
def lookupMonth (s : List Char) : Except PyError Nat :=
  match monthsTable.find? (fun e => e.1 == s) with
  | some e => .ok e.2
  | none => .error (.keyError "month abbreviation not in months")

/-- Gregorian leap year, as `datetime` validates days. -/
def isLeap (y : Nat) : Bool :=
  (y % 4 = 0 && y % 100 ≠ 0) || y % 400 = 0

/-- Day count of month `m` of year `y`. -/
def daysInMonth (y m : Nat) : Nat :=
  if m = 2 then (if isLeap y then 29 else 28)
  else if m = 4 || m = 6 || m = 9 || m = 11 then 30
  else 31

/-- Decimal digit characters of `n`. -/
def natChars (n : Nat) : List Char :=
  Nat.toDigits 10 n

/-- Zero-pad to `k` characters, as the `%Y`/`%m`/... format directives do. -/
def padTo (k n : Nat) : List Char :=
  List.replicate (k - (natChars n).length) '0' ++ natChars n

/-- `datetime.datetime(y, mo, d, hh, mi, ss)` followed by formatting
with `'{0:%Y-%m-%d %H:%M:%S}'`: the constructor validates the ranges
(`ValueError` otherwise) and the format zero-pads each field. -/
def mkDatetimeStr (y mo d hh mi ss : Nat) : Except PyError (List Char) :=
  if 1 ≤ y ∧ y ≤ 9999 ∧ 1 ≤ mo ∧ mo ≤ 12 ∧ 1 ≤ d ∧ d ≤ daysInMonth y mo
      ∧ hh ≤ 23 ∧ mi ≤ 59 ∧ ss ≤ 59 then
    .ok (padTo 4 y ++ '-' :: padTo 2 mo ++ '-' :: padTo 2 d ++
      ' ' :: padTo 2 hh ++ ':' :: padTo 2 mi ++ ':' :: padTo 2 ss)
  else .error (.valueError "datetime argument out of range")

/-- The timestamp scrape (rawimage.py lines 95-100): search
`(?<=Timestamp:).*`, whitespace-split the match, and feed tokens
4 (year), 1 (month, via the month table), 2 (day) and the `:`-split of
token 3 (time) to the `datetime` constructor, in the evaluation order
of the Python call; then format canonically. -/
def extractTimestamp (text : List Char) : Except PyError (List Char) := do
  let g ← reGroup (searchAfter "Timestamp:".data text)
  let date1 := pySplit g
  let year ← pyIntNat (← pyIndex date1 4)
  let mo ← lookupMonth (← pyIndex date1 1)
  let day ← pyIntNat (← pyIndex date1 2)
  let t3 ← pyIndex date1 3
  let parts := t3.splitOn ':'
  let hh ← pyIntNat (← pyIndex parts 0)
  let mi ← pyIntNat (← pyIndex parts 1)
  let ss ← pyIntNat (← pyIndex parts 2)
  mkDatetimeStr year mo day hh mi ss

/-- `np.array(list(s)).reshape((2,2))`: needs exactly 4 entries. -/
def reshape2x2 (l : List Char) : Except PyError (List (List Char)) :=
  match l with
  | [a, b, c, d] => .ok [[a, b], [c, d]]
  | _ => .error (.valueError "cannot reshape array into shape 2 2")

/-- The Bayer scrape (rawimage.py lines 131-134): search
`(?<=Filter pattern:).*`, strip, truncate to 4 characters, reshape
row-major to 2×2. -/
def extractBayer (text : List Char) : Except PyError (List Char × List (List Char)) := do
  let g ← reGroup (searchAfter "Filter pattern:".data text)
  let bayer_str := (stripChars g).take 4
  let bp ← reshape2x2 bayer_str
  .ok (bayer_str, bp)

/-- The flat metadata record scraped from the `dcraw -i -v` output. -/
structure CaptureMetadata where
  date : List Char
  shutter : List Char
  aperture : List Char
  iso : List Char
  focal : List Char
  original : List Char
  camera : List Char
  bayer_str : List Char
  bayer_pattern : List (List Char)
deriving DecidableEq

/-- The eight metadata scrapes of rawimage.py lines 95-134, in source
order; any failed search (or malformed timestamp / short Bayer string)
aborts the whole extraction. -/
def extractMetadata (text : List Char) : Except PyError CaptureMetadata := do
  let date ← extractTimestamp text
  let shutter := stripChars (← reGroup (searchAfterBefore "Shutter:".data "sec".data text))
  let aperture := stripChars (← reGroup (searchAfter "Aperture: f/".data text))
  let iso := stripChars (← reGroup (searchAfter "ISO speed:".data text))
  let focal := stripChars (← reGroup (searchAfterBefore "Focal length: ".data "mm".data text))
  let original := stripChars (← reGroup (searchAfter "Filename:".data text))
  let camera := stripChars (← reGroup (searchAfter "Camera:".data text))
  let bay ← extractBayer text
  .ok ⟨date, shutter, aperture, iso, focal, original, camera, bay.1, bay.2⟩

/-- The introducing labels (lookbehind strings) of the eight scrapes. -/
def eightLabels : List (List Char) :=
  ["Timestamp:".data, "Shutter:".data, "Aperture: f/".data, "ISO speed:".data,
   "Focal length: ".data, "Filename:".data, "Camera:".data, "Filter pattern:".data]

/-! ## `read_raw` (rawimage.py lines 39-66) and the FITS assembly
(`raw_to_fits`, lines 68-203)

The environment record below carries the parts of the outside world the
script touches: whether the source file exists, the bytes of the
sibling `.pgm` file the external decoder writes, the decoded sibling
`.ppm` image, and the metadata text the decoder prints.  External
`subprocess` invocations are recorded in an argv log so that "checked
before invoking the external tool" is statable. -/

/-- The outside world of one conversion. -/
structure Env where
  filename : String
  sourceExists : Bool
  pgmBytes : List Nat
  ppmImage : List (List Nat)
  metadataText : List Char

/-- The names bound at module level of rawimage.py: its imports
(`ArgumentParser`, `deepcopy`, `datetime`, `logging`, `math`, `os`,
`re`, `subprocess`, `sys`, `np`, `pf`) and its three functions.  `Image`
is used in `read_raw` (line 55) but appears in no import statement. -/
def moduleBindings : List String :=
  ["ArgumentParser", "deepcopy", "datetime", "logging", "math", "os", "re",
   "subprocess", "sys", "np", "pf", "read_pgm", "read_raw", "raw_to_fits"]

/-- Python global-name resolution against the module namespace:
an unbound name raises `NameError` at its use site. -/
def lookupName (n : String) : Option String :=
  if moduleBindings.contains n then some n else none

/-- `read_raw` (rawimage.py lines 39-66): fail with `IOError` when the
source file does not exist, before any subprocess call; otherwise run
the decoder and read the sibling file.  The second component is the
argv log of the external invocations performed.  In the
`interpolate=True` branch the source evaluates `Image.open(...)`, and
`Image` is not a bound name (see `moduleBindings`), so that branch
raises `NameError` after its decoder invocation. -/
def read_raw_model (env : Env) (interpolate : Bool) :
    Except PyError (List (List Nat)) × List (List String) :=
  if !env.sourceExists then
    (.error (.ioError ("File " ++ env.filename ++ " does not exist!")), [])
  else if interpolate then
    match lookupName "Image" with
    | none =>
      (.error (.nameError "name Image is not defined"),
        [["dcraw", "-q", "1", "-f", "-v", "-a", env.filename]])
    | some _ =>
      (.ok env.ppmImage, [["dcraw", "-q", "1", "-f", "-v", "-a", env.filename]])
  else
    (read_pgm env.pgmBytes, [["dcraw", "-D", "-4", env.filename]])

/-- One FITS image unit: pixel data, key/value header fields in
insertion order, comment lines. -/
structure HDU where
  data : List (List Nat)
  header : List (String × List Char)
  comments : List String
deriving DecidableEq

/-- `_update_header` (rawimage.py lines 136-147): append the eight
metadata fields and the three unit-explaining comments. -/
def update_header (md : CaptureMetadata) (hdu : HDU) : HDU :=
  { hdu with
    header := hdu.header ++
      [("OBSTIME", md.date), ("EXPTIME", md.shutter), ("APERTUR", md.aperture),
       ("ISO", md.iso), ("FOCAL", md.focal), ("ORIGIN", md.original),
       ("CAMERA", md.camera), ("BAYERPA", md.bayer_str)],
    comments := hdu.comments ++
      ["EXPTIME is in seconds.", "APERTUR is the ratio as in f/APERTUR",
       "FOCAL is in mm"] }

/-- `hdu.header.update('FILTER', s)` after `_update_header`. -/
def addFilter (s : String) (hdu : HDU) : HDU :=
  { hdu with header := hdu.header ++ [("FILTER", s.data)] }

/-- `split_map = np.array([[(0,0),(0,1)],[(1,0),(1,1)]])` flattened
row-major, which is the order numpy boolean-mask selection scans in. -/
def splitMapFlat : List (Nat × Nat) :=
  [(0, 0), (0, 1), (1, 0), (1, 1)]

/-- `split_map[bayer_pattern == ch]`: the tile positions whose Bayer
entry equals `ch`, in row-major scan order. -/
def maskSelect (bayer : List (List Char)) (ch : Char) : List (Nat × Nat) :=
  (splitMapFlat.zip bayer.flatten).filterMap
    (fun p => if p.2 = ch then some p.1 else none)

/-- numpy slice `l[off::2]`: every other element starting at `off`. -/
def everyOther {α : Type} : List α → List α
  | [] => []
  | [x] => [x]
  | x :: _ :: rest => x :: everyOther rest

/-- numpy slice `l[off::2]`. -/
def sliceFrom {α : Type} (off : Nat) (l : List α) : List α :=
  everyOther (l.drop off)

/-- numpy slice `grid[a::2, b::2]` (rawimage.py lines 160, 166, 172, 178). -/
def stride2 (g : List (List Nat)) (a b : Nat) : List (List Nat) :=
  (sliceFrom a g).map (fun r => sliceFrom b r)

/-- Interleave two lists, first list first; the inverse of splitting a
list into `l[0::2]` and `l[1::2]`. -/
def interleave2 {α : Type} : List α → List α → List α
  | [], ys => ys
  | x :: xs, ys => x :: interleave2 ys xs
termination_by xs ys => xs.length + ys.length

/-- Reassemble a grid from its four stride-2 sub-grids placed at tile
offsets `(0,0)`, `(0,1)`, `(1,0)`, `(1,1)`. -/
def reassemble (c00 c01 c10 c11 : List (List Nat)) : List (List Nat) :=
  interleave2 (List.zipWith interleave2 c00 c01) (List.zipWith interleave2 c10 c11)

/-- Look up, among offset-tagged channels, the one sitting at tile
offset `p`. -/
def chanLookup (entries : List ((Nat × Nat) × List (List Nat))) (p : Nat × Nat) :
    List (List Nat) :=
  match entries.find? (fun e => e.1 == p) with
  | some e => e.2
  | none => []

/-- Cut the four strided channels of `g` at the given tile offsets and
interleave them back, each at its own offset. -/
def reassembleAt (g : List (List Nat)) (pR pG1 pG2 pB : Nat × Nat) : List (List Nat) :=
  let entries := [(pR, stride2 g pR.1 pR.2), (pG1, stride2 g pG1.1 pG1.2),
    (pG2, stride2 g pG2.1 pG2.2), (pB, stride2 g pB.1 pB.2)]
  reassemble (chanLookup entries (0, 0)) (chanLookup entries (0, 1))
    (chanLookup entries (1, 0)) (chanLookup entries (1, 1))

/-- The output-shape selection of `raw_to_fits` (rawimage.py lines
152-197): `interpolate` wins and yields one unit; otherwise
`split_channels` yields the four per-filter units (indexing
`split_map[bayer_pattern == c][i]` raises `IndexError` when the mask
selects too few positions); otherwise one unit holding the whole grid,
with the extra `BAYERPA` comment. -/
def assembleHDUs (raw : List (List Nat)) (md : CaptureMetadata)
    (split_channels interpolate : Bool) : Except PyError (List HDU) :=
  if interpolate then
    .ok [update_header md ⟨raw, [], []⟩]
  else if split_channels then do
    let oR ← pyIndex (maskSelect md.bayer_pattern 'R') 0
    let R_hdu := addFilter "R" (update_header md ⟨stride2 raw oR.1 oR.2, [], []⟩)
    let oG1 ← pyIndex (maskSelect md.bayer_pattern 'G') 0
    let G1_hdu := addFilter "G1" (update_header md ⟨stride2 raw oG1.1 oG1.2, [], []⟩)
    let oG2 ← pyIndex (maskSelect md.bayer_pattern 'G') 1
    let G2_hdu := addFilter "G2" (update_header md ⟨stride2 raw oG2.1 oG2.2, [], []⟩)
    let oB ← pyIndex (maskSelect md.bayer_pattern 'B') 0
    let B_hdu := addFilter "B" (update_header md ⟨stride2 raw oB.1 oB.2, [], []⟩)
    .ok [R_hdu, G1_hdu, G2_hdu, B_hdu]
  else
    let hdu := update_header md ⟨raw, [], []⟩
    .ok [{ hdu with comments := hdu.comments ++ ["BAYERPA is the Bayer filter pattern"] }]

/-- `raw_to_fits` (rawimage.py lines 68-203) up to the in-memory
`HDUList`: read the raw data, run the metadata subprocess, scrape the
metadata, assemble.  The second component is the argv log. -/
def raw_to_fits_model (env : Env) (split_channels interpolate : Bool) :
    Except PyError (List HDU) × List (List String) :=
  match read_raw_model env interpolate with
  | (.error e, log) => (.error e, log)
  | (.ok raw, log) =>
    let log2 := log ++ [["dcraw", "-i", "-v", env.filename]]
    match extractMetadata env.metadataText with
    | .error e => (.error e, log2)
    | .ok md => (assembleHDUs raw md split_channels interpolate, log2)

/-! ## Concrete inputs used to exercise the definitions -/

instance {ε α : Type} [DecidableEq ε] [DecidableEq α] : DecidableEq (Except ε α) :=
  fun x y =>
    match x, y with
    | .error e, .error f => decidable_of_iff (e = f) (by simp)
    | .ok a, .ok b => decidable_of_iff (a = b) (by simp)
    | .error _, .ok _ => isFalse (by simp)
    | .ok _, .error _ => isFalse (by simp)

/-- The bytes of `P5\n# cm\n2 2\n65535\n` followed by four big-endian
16-bit samples `256, 2, 257, 65535`. -/
def bufDemo : List Nat :=
  [80, 53, 10, 35, 32, 99, 109, 10, 50, 32, 50, 10, 54, 53, 53, 51, 53, 10,
   1, 0, 0, 2, 1, 1, 255, 255]

/-- The spec's literal timestamp line. -/
def tsLineDemo : List Char :=
  "Timestamp: Mon Jan  5 13:07:42 2009\n".data

/-- A metadata line whose `Filter pattern:` value begins with `RGGB`. -/
def bayerLineDemo : List Char :=
  "Filter pattern: RGGBRGGBRGGB\n".data

/-- A full metadata stream in which the `ISO speed:` label is absent. -/
def noIsoDemo : List Char :=
  ("Filename: IMG_1204.CR2\nTimestamp: Mon Jan  5 13:07:42 2009\n" ++
   "Camera: Canon EOS 350D\nShutter: 1/60.0 sec\nAperture: f/5.6\n" ++
   "Focal length: 50.0 mm\nFilter pattern: RGGBRGGBRGGBRGGB\n").data

/-- An environment whose source file exists. -/
def envDemo : Env :=
  { filename := "IMG_1204.CR2", sourceExists := true,
    pgmBytes := bufDemo, ppmImage := [[1]], metadataText := noIsoDemo }

/-- An environment whose source file is missing. -/
def envMissingDemo : Env :=
  { envDemo with filename := "nope.CR2", sourceExists := false }

/-- A 4×4 grid. -/
def gridDemo : List (List Nat) :=
  [[1, 2, 3, 4], [5, 6, 7, 8], [9, 10, 11, 12], [13, 14, 15, 16]]

/-- A metadata record with the `RGGB` arrangement. -/
def mdDemo : CaptureMetadata :=
  ⟨"2009-01-05 13:07:42".data, "1/60.0".data, "5.6".data, "400".data,
   "50.0".data, "IMG_1204.CR2".data, "Canon EOS 350D".data,
   "RGGB".data, [['R', 'G'], ['G', 'B']]⟩

/-- A metadata record whose Bayer arrangement has no `R` entry. -/
def mdAllGreenDemo : CaptureMetadata :=
  { mdDemo with bayer_str := "GGGG".data, bayer_pattern := [['G', 'G'], ['G', 'G']] }

/-! # Theorems

General facts about the embedded operations, followed by one theorem
per claim (and a witness instantiation for each theorem that carries a
hypothesis). -/

theorem everyOther_cons {α : Type} (a : α) (l : List α) :
    everyOther (a :: l) = a :: everyOther (l.drop 1) := by
  cases l <;> rfl

theorem interleave2_everyOther {α : Type} (l : List α) :
    interleave2 (everyOther l) (everyOther (l.drop 1)) = l := by
  induction l with
  | nil => simp [everyOther, interleave2]
  | cons a t ih =>
    rw [everyOther_cons]
    show interleave2 (a :: everyOther (t.drop 1)) (everyOther t) = a :: t
    simp only [interleave2]
    rw [ih]

theorem zipWith_map_same {α β γ δ : Type} (f : β → γ → δ) (g : α → β) (h : α → γ)
    (l : List α) : List.zipWith f (l.map g) (l.map h) = l.map (fun x => f (g x) (h x)) := by
  induction l with
  | nil => rfl
  | cons a t ih => simp [ih]

theorem interleave2_slices {α : Type} (l : List α) :
    interleave2 (sliceFrom 0 l) (sliceFrom 1 l) = l := by
  show interleave2 (everyOther (l.drop 0)) (everyOther (l.drop 1)) = l
  rw [List.drop_zero]
  exact interleave2_everyOther l

theorem reassemble_strides (g : List (List Nat)) :
    reassemble (stride2 g 0 0) (stride2 g 0 1) (stride2 g 1 0) (stride2 g 1 1) = g := by
  unfold reassemble stride2
  rw [zipWith_map_same, zipWith_map_same]
  have hval : ∀ r : List Nat, interleave2 (sliceFrom 0 r) (sliceFrom 1 r) = r :=
    fun r => interleave2_slices r
  rw [List.map_congr_left (fun r _ => hval r), List.map_congr_left (fun r _ => hval r)]
  simp only [List.map_id']
  exact interleave2_slices g

theorem count_RGB_le (l : List Char) :
    l.count 'R' + l.count 'G' + l.count 'B' ≤ l.length := by
  induction l with
  | nil => simp
  | cons a t ih =>
    simp only [List.count_cons, List.length_cons]
    by_cases haR : a = 'R' <;> by_cases haG : a = 'G' <;> by_cases haB : a = 'B' <;>
      simp_all <;> omega

theorem mem_RGB_of_counts (l : List Char)
    (h : l.count 'R' + l.count 'G' + l.count 'B' = l.length) :
    ∀ e ∈ l, e = 'R' ∨ e = 'G' ∨ e = 'B' := by
  induction l with
  | nil => simp
  | cons a t ih =>
    intro e he
    have hle := count_RGB_le t
    simp only [List.count_cons, List.length_cons] at h
    by_cases haR : a = 'R' <;> by_cases haG : a = 'G' <;> by_cases haB : a = 'B' <;>
      rcases List.mem_cons.mp he with rfl | het <;>
      simp_all <;>
      exact ih (by omega) e het

/-- The four tile positions the `split_channels` path selects, for any
Bayer arrangement with exactly one `R`, two `G` and one `B`: the three
mask selections succeed and together enumerate each tile position once. -/
theorem offsets_of_counts (a b c d : Char)
    (hR : [a, b, c, d].count 'R' = 1) (hG : [a, b, c, d].count 'G' = 2)
    (hB : [a, b, c, d].count 'B' = 1) :
    ∃ pR pG1 pG2 pB : Nat × Nat,
      maskSelect [[a, b], [c, d]] 'R' = [pR] ∧
      maskSelect [[a, b], [c, d]] 'G' = [pG1, pG2] ∧
      maskSelect [[a, b], [c, d]] 'B' = [pB] ∧
      [pR, pG1, pG2, pB].Perm [(0, 0), (0, 1), (1, 0), (1, 1)] := by
  have hmem := mem_RGB_of_counts [a, b, c, d] (by rw [hR, hG, hB]; rfl)
  have ha := hmem a (by simp)
  have hb := hmem b (by simp)
  have hc := hmem c (by simp)
  have hd := hmem d (by simp)
  rcases ha with rfl | rfl | rfl <;> rcases hb with rfl | rfl | rfl <;>
    rcases hc with rfl | rfl | rfl <;> rcases hd with rfl | rfl | rfl <;>
    first
      | exact absurd hR (by decide)
      | exact absurd hG (by decide)
      | exact absurd hB (by decide)
      | exact ⟨_, _, _, _, rfl, rfl, rfl, by decide⟩

theorem chanLookup_of_perm (g : List (List Nat)) (pR pG1 pG2 pB p : Nat × Nat)
    (hperm : [pR, pG1, pG2, pB].Perm [(0, 0), (0, 1), (1, 0), (1, 1)])
    (hp : p ∈ ([(0, 0), (0, 1), (1, 0), (1, 1)] : List (Nat × Nat))) :
    chanLookup [(pR, stride2 g pR.1 pR.2), (pG1, stride2 g pG1.1 pG1.2),
      (pG2, stride2 g pG2.1 pG2.2), (pB, stride2 g pB.1 pB.2)] p =
      stride2 g p.1 p.2 := by
  have hpmem : p ∈ [pR, pG1, pG2, pB] := hperm.mem_iff.mpr hp
  have hsome : ∃ e ∈ [(pR, stride2 g pR.1 pR.2), (pG1, stride2 g pG1.1 pG1.2),
      (pG2, stride2 g pG2.1 pG2.2), (pB, stride2 g pB.1 pB.2)], (e.1 == p) = true := by
    rcases List.mem_cons.mp hpmem with rfl | h1
    · exact ⟨(p, stride2 g p.1 p.2), by simp, by simp⟩
    rcases List.mem_cons.mp h1 with rfl | h2
    · exact ⟨(p, stride2 g p.1 p.2), by simp, by simp⟩
    rcases List.mem_cons.mp h2 with rfl | h3
    · exact ⟨(p, stride2 g p.1 p.2), by simp, by simp⟩
    rcases List.mem_cons.mp h3 with rfl | h4
    · exact ⟨(p, stride2 g p.1 p.2), by simp, by simp⟩
    · simp at h4
  unfold chanLookup
  rcases hfind : List.find? (fun e => e.1 == p) [(pR, stride2 g pR.1 pR.2),
      (pG1, stride2 g pG1.1 pG1.2), (pG2, stride2 g pG2.1 pG2.2),
      (pB, stride2 g pB.1 pB.2)] with _ | e
  · rcases hsome with ⟨e, hemem, hpred⟩
    have := List.find?_eq_none.mp hfind e hemem
    simp_all
  · have hpe : e.1 = p := by
      have := List.find?_some hfind
      simpa using this
    have hemem := List.mem_of_find?_eq_some hfind
    have hsnd : e.2 = stride2 g e.1.1 e.1.2 := by
      rcases List.mem_cons.mp hemem with rfl | h1
      · rfl
      rcases List.mem_cons.mp h1 with rfl | h2
      · rfl
      rcases List.mem_cons.mp h2 with rfl | h3
      · rfl
      rcases List.mem_cons.mp h3 with rfl | h4
      · rfl
      · simp at h4
    rw [hfind]
    show e.2 = stride2 g p.1 p.2
    rw [hsnd, hpe]

theorem reassembleAt_of_perm (g : List (List Nat)) (pR pG1 pG2 pB : Nat × Nat)
    (hperm : [pR, pG1, pG2, pB].Perm [(0, 0), (0, 1), (1, 0), (1, 1)]) :
    reassembleAt g pR pG1 pG2 pB = g := by
  simp only [reassembleAt]
  rw [chanLookup_of_perm g pR pG1 pG2 pB (0, 0) hperm (by simp),
    chanLookup_of_perm g pR pG1 pG2 pB (0, 1) hperm (by simp),
    chanLookup_of_perm g pR pG1 pG2 pB (1, 0) hperm (by simp),
    chanLookup_of_perm g pR pG1 pG2 pB (1, 1) hperm (by simp)]
  exact reassemble_strides g

/-- C2: for every grid with even height and width and every 2×2 Bayer
arrangement with exactly one `R`, two `G` and one `B`, the four strided
channels `grid[a::2, b::2]` selected by the split-channels path sit at
tile offsets that enumerate the four tile positions, every grid index
`(i, j)` falls under exactly one of the four offsets, and interleaving
the four channels back at their tile offsets reconstructs the grid. -/
theorem claim_C2 (g : List (List Nat)) (a b c d : Char)
    (hH : g.length % 2 = 0) (hW : ∀ r ∈ g, r.length % 2 = 0)
    (hR : [a, b, c, d].count 'R' = 1) (hG : [a, b, c, d].count 'G' = 2)
    (hB : [a, b, c, d].count 'B' = 1) :
    ∃ pR pG1 pG2 pB : Nat × Nat,
      maskSelect [[a, b], [c, d]] 'R' = [pR] ∧
      maskSelect [[a, b], [c, d]] 'G' = [pG1, pG2] ∧
      maskSelect [[a, b], [c, d]] 'B' = [pB] ∧
      [pR, pG1, pG2, pB].Perm [(0, 0), (0, 1), (1, 0), (1, 1)] ∧
      (∀ i j : Nat, [pR, pG1, pG2, pB].countP (fun q => q = (i % 2, j % 2)) = 1) ∧
      reassembleAt g pR pG1 pG2 pB = g := by
  obtain ⟨pR, pG1, pG2, pB, hmR, hmG, hmB, hperm⟩ := offsets_of_counts a b c d hR hG hB
  refine ⟨pR, pG1, pG2, pB, hmR, hmG, hmB, hperm, ?_, reassembleAt_of_perm g _ _ _ _ hperm⟩
  intro i j
  rw [hperm.countP_eq]
  rcases Nat.mod_two_eq_zero_or_one i with hi | hi <;>
    rcases Nat.mod_two_eq_zero_or_one j with hj | hj <;> rw [hi, hj] <;> decide

/-! Facts about the PGM reader. -/

theorem pairsBE_length (c : Nat) : ∀ l : List Nat, l.length = 2 * c →
    (pairsBE l).length = c := by
  induction c with
  | zero =>
    intro l hl
    rcases List.length_eq_zero.mp (by omega : l.length = 0)
    rfl
  | succ c ih =>
    intro l hl
    rcases l with _ | ⟨b0, _ | ⟨b1, r⟩⟩
    · simp at hl
    · simp at hl; omega
    · simp only [pairsBE, List.length_cons]
      rw [ih r (by simp at hl; omega)]

theorem pairsBE_getD (k : Nat) : ∀ l : List Nat, 2 * k + 1 < l.length →
    (pairsBE l).getD k 0 = 256 * l.getD (2 * k) 0 + l.getD (2 * k + 1) 0 := by
  induction k with
  | zero =>
    intro l hl
    rcases l with _ | ⟨b0, _ | ⟨b1, r⟩⟩
    · simp at hl
    · simp at hl
    · rfl
  | succ k ih =>
    intro l hl
    rcases l with _ | ⟨b0, _ | ⟨b1, r⟩⟩
    · simp at hl
    · simp at hl
    · have h1 : (pairsBE (b0 :: b1 :: r)).getD (k + 1) 0 = (pairsBE r).getD k 0 := rfl
      have h2 : 2 * k + 1 < r.length := by simp at hl; omega
      rw [h1, ih r h2]
      have e1 : (b0 :: b1 :: r).getD (2 * (k + 1)) 0 = r.getD (2 * k) 0 := by
        have : 2 * (k + 1) = 2 * k + 2 := by omega
        rw [this]; rfl
      have e2 : (b0 :: b1 :: r).getD (2 * (k + 1) + 1) 0 = r.getD (2 * k + 1) 0 := by
        have : 2 * (k + 1) + 1 = (2 * k + 1) + 2 := by omega
        rw [this]; rfl
      rw [e1, e2]

theorem chunkRows_length (w h : Nat) (l : List Nat) : (chunkRows w h l).length = h := by
  induction h generalizing l with
  | zero => rfl
  | succ h ih => simp [chunkRows, ih]

theorem chunkRows_row_length (w h : Nat) (l : List Nat) (hl : l.length = w * h) :
    ∀ r ∈ chunkRows w h l, r.length = w := by
  induction h generalizing l with
  | zero => simp [chunkRows]
  | succ h ih =>
    intro r hr
    rcases List.mem_cons.mp hr with rfl | hr2
    · rw [List.length_take]
      have : w ≤ l.length := by rw [hl]; calc
        w = w * 1 := (Nat.mul_one w).symm
        _ ≤ w * (h + 1) := Nat.mul_le_mul_left w (by omega)
      omega
    · exact ih (l.drop w) (by rw [List.length_drop, hl]; ring_nf; omega) r hr2

theorem take_getD (l : List Nat) (n k : Nat) (hk : k < n) :
    (l.take n).getD k 0 = l.getD k 0 := by
  simp [List.getD_eq_getElem?_getD, List.getElem?_take, hk]

theorem drop_getD (l : List Nat) (n k : Nat) :
    (l.drop n).getD k 0 = l.getD (n + k) 0 := by
  simp [List.getD_eq_getElem?_getD, List.getElem?_drop]

theorem chunkRows_getD (w h : Nat) (l : List Nat) (i j : Nat) (hi : i < h) (hj : j < w) :
    ((chunkRows w h l).getD i []).getD j 0 = l.getD (i * w + j) 0 := by
  induction h generalizing l i with
  | zero => omega
  | succ h ih =>
    rcases i with _ | i
    · show ((l.take w).getD j 0) = l.getD (0 * w + j) 0
      rw [take_getD l w j hj]
      congr 1
      omega
    · have hstep : ((chunkRows w (h + 1) l).getD (i + 1) []).getD j 0 =
          ((chunkRows w h (l.drop w)).getD i []).getD j 0 := rfl
      rw [hstep, ih (l.drop w) i (by omega), drop_getD]
      congr 1
      ring

theorem flatten_length_of (grid : List (List Nat)) (h w : Nat)
    (hlen : grid.length = h) (hrow : ∀ r ∈ grid, r.length = w) :
    grid.flatten.length = w * h := by
  induction grid generalizing h with
  | nil => simp [← hlen]
  | cons r t ih =>
    rcases h with _ | h
    · simp at hlen
    · simp only [List.flatten_cons, List.length_append]
      rw [hrow r (by simp), ih h (by simpa using hlen) (fun s hs => hrow s (by simp [hs]))]
      ring

/-- C1: on every buffer whose header matches the raw-PGM pattern and
which holds the declared `width*height` samples, `read_pgm` returns a
grid of shape `(height, width)` holding exactly `width*height` samples,
each sample being the 1-byte value when `maxval < 256` and the 2-byte
big-endian value otherwise, read in order from the byte right after the
header. -/
theorem claim_C1 (buffer : List Nat) (off w h maxval : Nat)
    (hm : pgmMatch buffer = some (off, w, h, maxval))
    (hlen : off + w * h * (if maxval < 256 then 1 else 2) ≤ buffer.length) :
    ∃ grid, read_pgm buffer = .ok grid ∧ grid.length = h ∧
      (∀ r ∈ grid, r.length = w) ∧ grid.flatten.length = w * h ∧
      ∀ i j : Nat, i < h → j < w →
        (grid.getD i []).getD j 0 =
          if maxval < 256 then buffer.getD (off + (i * w + j)) 0
          else 256 * buffer.getD (off + 2 * (i * w + j)) 0 +
            buffer.getD (off + 2 * (i * w + j) + 1) 0 := by
  have hmul : ∀ i j : Nat, i < h → j < w → i * w + j < w * h := by
    intro i j hi hj
    calc i * w + j < i * w + w := by omega
    _ = (i + 1) * w := by ring
    _ ≤ h * w := Nat.mul_le_mul_right w (by omega)
    _ = w * h := Nat.mul_comm h w
  by_cases hmax : maxval < 256
  · have hle : w * h ≤ buffer.length - off := by
      simp only [hmax, if_true] at hlen
      omega
    have hbs : bytesToSamples maxval (buffer.drop off) (w * h) =
        some ((buffer.drop off).take (w * h)) := by
      simp [bytesToSamples, hmax, List.length_drop, hle]
    have hread : read_pgm buffer = .ok (chunkRows w h ((buffer.drop off).take (w * h))) := by
      simp [read_pgm, hm, hbs]
    have hslen : ((buffer.drop off).take (w * h)).length = w * h := by
      rw [List.length_take, List.length_drop]
      omega
    refine ⟨_, hread, chunkRows_length w h _, chunkRows_row_length w h _ hslen, ?_, ?_⟩
    · exact flatten_length_of _ h w (chunkRows_length w h _) (chunkRows_row_length w h _ hslen)
    · intro i j hi hj
      rw [chunkRows_getD w h _ i j hi hj, take_getD _ _ _ (hmul i j hi hj), drop_getD,
        if_pos hmax]
  · have hle : 2 * (w * h) ≤ buffer.length - off := by
      simp only [hmax, if_false] at hlen
      omega
    have hbs : bytesToSamples maxval (buffer.drop off) (w * h) =
        some (pairsBE ((buffer.drop off).take (2 * (w * h)))) := by
      simp [bytesToSamples, hmax, List.length_drop, hle]
    have hread : read_pgm buffer =
        .ok (chunkRows w h (pairsBE ((buffer.drop off).take (2 * (w * h))))) := by
      simp [read_pgm, hm, hbs]
    have htlen : ((buffer.drop off).take (2 * (w * h))).length = 2 * (w * h) := by
      rw [List.length_take, List.length_drop]
      omega
    have hslen : (pairsBE ((buffer.drop off).take (2 * (w * h)))).length = w * h :=
      pairsBE_length (w * h) _ htlen
    refine ⟨_, hread, chunkRows_length w h _, chunkRows_row_length w h _ hslen, ?_, ?_⟩
    · exact flatten_length_of _ h w (chunkRows_length w h _) (chunkRows_row_length w h _ hslen)
    · intro i j hi hj
      have hidx := hmul i j hi hj
      rw [chunkRows_getD w h _ i j hi hj,
        pairsBE_getD (i * w + j) _ (by rw [htlen]; omega),
        take_getD _ _ _ (by omega), take_getD _ _ _ (by omega),
        drop_getD, drop_getD, if_neg hmax]
      congr 2

/-- C1 witness: the demo 16-bit PGM buffer. -/
theorem claim_C1_witness :
    pgmMatch bufDemo = some (18, 2, 2, 65535) ∧
    18 + 2 * 2 * (if (65535 : Nat) < 256 then 1 else 2) ≤ bufDemo.length ∧
    ∃ grid, read_pgm bufDemo = .ok grid ∧ grid.length = 2 ∧
      (∀ r ∈ grid, r.length = 2) ∧ grid.flatten.length = 2 * 2 ∧
      ∀ i j : Nat, i < 2 → j < 2 →
        (grid.getD i []).getD j 0 =
          if (65535 : Nat) < 256 then bufDemo.getD (18 + (i * 2 + j)) 0
          else 256 * bufDemo.getD (18 + 2 * (i * 2 + j)) 0 +
            bufDemo.getD (18 + 2 * (i * 2 + j) + 1) 0 :=
  ⟨by decide, by decide, claim_C1 bufDemo 18 2 2 65535 (by decide) (by decide)⟩

/-- C7: `read_pgm` raises the `Not a raw PGM file` format error exactly
when the header regex fails to match — in particular whenever the `P5`
magic tag is absent — and never raises that error on a buffer whose
header matches. -/
theorem claim_C7 (buffer : List Nat) :
    (read_pgm buffer = .error (.valueError "Not a raw PGM file") ↔
      pgmMatch buffer = none) ∧
    (buffer.take 2 ≠ [80, 53] → pgmMatch buffer = none) := by
  constructor
  · cases hp : pgmMatch buffer with
    | none => simp [read_pgm, hp]
    | some q =>
      obtain ⟨off, w, h, maxval⟩ := q
      cases hbs : bytesToSamples maxval (buffer.drop off) (w * h) with
      | none => simp [read_pgm, hp, hbs]
      | some samples => simp [read_pgm, hp, hbs]
  · intro hneq
    rcases buffer with _ | ⟨b0, _ | ⟨b1, _ | ⟨b, rest⟩⟩⟩
    · rfl
    · rfl
    · rfl
    · have hg : ¬(b0 = 80 ∧ b1 = 53 ∧ isSpaceByte b) := by
        rintro ⟨rfl, rfl, -⟩
        exact hneq rfl
      simp [pgmMatch, hg]

/-- C7 witness: a three-byte buffer without the magic tag. -/
theorem claim_C7_witness :
    ([1, 2, 3] : List Nat).take 2 ≠ [80, 53] ∧
    pgmMatch [1, 2, 3] = none ∧
    read_pgm [1, 2, 3] = .error (.valueError "Not a raw PGM file") :=
  ⟨by decide, (claim_C7 [1, 2, 3]).2 (by decide),
    (claim_C7 [1, 2, 3]).1.mpr ((claim_C7 [1, 2, 3]).2 (by decide))⟩

/-- C2 witness: the 4×4 demo grid with the `RGGB` arrangement. -/
theorem claim_C2_witness :
    gridDemo.length % 2 = 0 ∧ (∀ r ∈ gridDemo, r.length % 2 = 0) ∧
    ∃ pR pG1 pG2 pB : Nat × Nat,
      maskSelect [['R', 'G'], ['G', 'B']] 'R' = [pR] ∧
      maskSelect [['R', 'G'], ['G', 'B']] 'G' = [pG1, pG2] ∧
      maskSelect [['R', 'G'], ['G', 'B']] 'B' = [pB] ∧
      [pR, pG1, pG2, pB].Perm [(0, 0), (0, 1), (1, 0), (1, 1)] ∧
      (∀ i j : Nat, [pR, pG1, pG2, pB].countP (fun q => q = (i % 2, j % 2)) = 1) ∧
      reassembleAt gridDemo pR pG1 pG2 pB = gridDemo :=
  ⟨by decide, by decide,
    claim_C2 gridDemo 'R' 'G' 'G' 'B' (by decide) (by decide)
      (by decide) (by decide) (by decide)⟩

/-! Facts about the metadata scrapes. -/

theorem prefixOf_eq_true (l1 l2 : List Char) : l1.isPrefixOf l2 = true ↔ l1 <+: l2 :=
  List.isPrefixOf_iff_prefix

theorem suffixOf_eq_true (l1 l2 : List Char) : l1.isSuffixOf l2 = true ↔ l1 <:+ l2 :=
  List.isSuffixOf_iff_suffix

theorem contains_of_suffix_take (text L : List Char) (i : Nat)
    (h : L.isSuffixOf (text.take i) = true) : containsSub text L = true := by
  obtain ⟨t, ht⟩ := (suffixOf_eq_true L (text.take i)).mp h
  have hsplit : text = t ++ (L ++ text.drop i) := by
    conv_lhs => rw [← List.take_append_drop i text]
    rw [← ht, List.append_assoc]
  have hlen : t.length ≤ text.length := by
    have h1 : t.length ≤ (text.take i).length := by
      rw [← ht]; simp
    have h2 : (text.take i).length ≤ text.length := by
      rw [List.length_take]; omega
    omega
  apply List.any_eq_true.mpr
  refine ⟨t.length, List.mem_range.mpr (by omega), ?_⟩
  apply (prefixOf_eq_true _ _).mpr
  have hdrop : text.drop t.length = L ++ text.drop i := by
    conv_lhs => rw [hsplit]
    exact List.drop_left t (L ++ text.drop i)
  exact ⟨text.drop i, hdrop.symm⟩

theorem contains_of_searchAfter (L text g : List Char)
    (h : searchAfter L text = some g) : containsSub text L = true := by
  unfold searchAfter at h
  cases hf : (List.range (text.length + 1)).find? (fun i => L.isSuffixOf (text.take i)) with
  | none => rw [hf] at h; cases h
  | some i =>
    have hp := List.find?_some hf
    exact contains_of_suffix_take text L i (by simpa using hp)

theorem findSome?_exists {α β : Type} (f : α → Option β) (l : List α) (b : β)
    (h : l.findSome? f = some b) : ∃ a ∈ l, f a = some b := by
  induction l with
  | nil => cases h
  | cons x t ih =>
    rw [List.findSome?_cons] at h
    cases hfx : f x with
    | some y =>
      rw [hfx] at h
      exact ⟨x, by simp, by rw [hfx]; exact h⟩
    | none =>
      rw [hfx] at h
      obtain ⟨a, ha, hfa⟩ := ih h
      exact ⟨a, by simp [ha], hfa⟩

theorem contains_of_searchAfterBefore (L stop text g : List Char)
    (h : searchAfterBefore L stop text = some g) : containsSub text L = true := by
  unfold searchAfterBefore at h
  obtain ⟨i, hi, -⟩ := findSome?_exists _ _ _ h
  have hp := List.of_mem_filter hi
  exact contains_of_suffix_take text L i (by simpa using hp)

theorem bindOk {α β : Type} {x : Except PyError α} {f : α → Except PyError β} {b : β}
    (h : x >>= f = .ok b) : ∃ a, x = .ok a ∧ f a = .ok b := by
  cases x with
  | error e => simp [Bind.bind, Except.bind] at h
  | ok a => exact ⟨a, rfl, by simpa [Bind.bind, Except.bind] using h⟩

theorem reGroup_ok (o : Option (List Char)) (g : List Char)
    (h : reGroup o = .ok g) : o = some g := by
  cases o with
  | none => cases h
  | some x => cases h; rfl

theorem extractTimestamp_ok_contains (text : List Char) (d : List Char)
    (h : extractTimestamp text = .ok d) : containsSub text "Timestamp:".data = true := by
  unfold extractTimestamp at h
  obtain ⟨g, h1, -⟩ := bindOk h
  exact contains_of_searchAfter _ text g (reGroup_ok _ g h1)

theorem extractBayer_ok_contains (text : List Char) (b : List Char × List (List Char))
    (h : extractBayer text = .ok b) : containsSub text "Filter pattern:".data = true := by
  unfold extractBayer at h
  obtain ⟨g, h1, -⟩ := bindOk h
  exact contains_of_searchAfter _ text g (reGroup_ok _ g h1)

theorem extractMetadata_ok_contains (text : List Char) (md : CaptureMetadata)
    (h : extractMetadata text = .ok md) :
    ∀ L ∈ eightLabels, containsSub text L = true := by
  unfold extractMetadata at h
  obtain ⟨date, hts, h⟩ := bindOk h
  obtain ⟨gSh, hsh, h⟩ := bindOk h
  obtain ⟨gAp, hap, h⟩ := bindOk h
  obtain ⟨gIso, hiso, h⟩ := bindOk h
  obtain ⟨gFoc, hfoc, h⟩ := bindOk h
  obtain ⟨gOrig, horig, h⟩ := bindOk h
  obtain ⟨gCam, hcam, h⟩ := bindOk h
  obtain ⟨bay, hbay, -⟩ := bindOk h
  intro L hL
  simp only [eightLabels, List.mem_cons, List.not_mem_nil, or_false] at hL
  rcases hL with rfl | rfl | rfl | rfl | rfl | rfl | rfl | rfl
  · exact extractTimestamp_ok_contains text date hts
  · exact contains_of_searchAfterBefore _ _ text gSh (reGroup_ok _ gSh hsh)
  · exact contains_of_searchAfter _ text gAp (reGroup_ok _ gAp hap)
  · exact contains_of_searchAfter _ text gIso (reGroup_ok _ gIso hiso)
  · exact contains_of_searchAfterBefore _ _ text gFoc (reGroup_ok _ gFoc hfoc)
  · exact contains_of_searchAfter _ text gOrig (reGroup_ok _ gOrig horig)
  · exact contains_of_searchAfter _ text gCam (reGroup_ok _ gCam hcam)
  · exact extractBayer_ok_contains text bay hbay

/-- C6: a metadata stream from which any one of the eight introducing
labels is absent makes the extraction fail with an error — no default
and no partial record — and the whole conversion then yields an error
rather than an output container. -/
theorem claim_C6 (text : List Char)
    (habs : ∃ L ∈ eightLabels, containsSub text L = false) :
    (∃ e, extractMetadata text = .error e) ∧
    ∀ env : Env, env.metadataText = text → ∀ sc ip : Bool,
      ∀ hdus log, raw_to_fits_model env sc ip ≠ (.ok hdus, log) := by
  have hne : ∀ md, extractMetadata text ≠ .ok md := by
    intro md h
    obtain ⟨L, hL, hfalse⟩ := habs
    have := extractMetadata_ok_contains text md h L hL
    simp [this] at hfalse
  constructor
  · cases hx : extractMetadata text with
    | error e => exact ⟨e, rfl⟩
    | ok md => exact absurd hx (hne md)
  · intro env henv sc ip hdus log h
    unfold raw_to_fits_model at h
    rcases hrr : read_raw_model env ip with ⟨res, lg⟩
    rw [hrr] at h
    cases res with
    | error e => simp at h
    | ok raw =>
      cases hmd : extractMetadata env.metadataText with
      | error e => rw [hmd] at h; simp at h
      | ok md =>
        rw [henv] at hmd
        exact hne md hmd

set_option maxRecDepth 4000 in
/-- C6 witness: the demo metadata stream that lacks `ISO speed:`. -/
theorem claim_C6_witness :
    (∃ L ∈ eightLabels, containsSub noIsoDemo L = false) ∧
    (∃ e, extractMetadata noIsoDemo = .error e) ∧
    ∀ env : Env, env.metadataText = noIsoDemo → ∀ sc ip : Bool,
      ∀ hdus log, raw_to_fits_model env sc ip ≠ (.ok hdus, log) := by
  have habs : ∃ L ∈ eightLabels, containsSub noIsoDemo L = false := by decide
  exact ⟨habs, (claim_C6 noIsoDemo habs).1, (claim_C6 noIsoDemo habs).2⟩

/-- C5: on the literal line `Timestamp: Mon Jan  5 13:07:42 2009` the
timestamp scrape maps `Jan` through the month table and reassembles the
tokens into the canonical `2009-01-05 13:07:42`. -/
theorem claim_C5 : extractTimestamp tsLineDemo = .ok "2009-01-05 13:07:42".data := by
  decide

/-- C4: whenever the stripped `Filter pattern:` value begins with
`RGGB`, the Bayer scrape truncates it to `RGGB` and reshapes it
row-major to `[[R, G], [G, B]]`, and the mask selections place `R` at
`(0,0)`, the first `G` at `(0,1)`, the second `G` at `(1,0)` and `B` at
`(1,1)`. -/
theorem claim_C4 (text g : List Char)
    (hs : searchAfter "Filter pattern:".data text = some g)
    (hpre : "RGGB".data <+: stripChars g) :
    extractBayer text = .ok ("RGGB".data, [['R', 'G'], ['G', 'B']]) ∧
    maskSelect [['R', 'G'], ['G', 'B']] 'R' = [(0, 0)] ∧
    maskSelect [['R', 'G'], ['G', 'B']] 'G' = [(0, 1), (1, 0)] ∧
    maskSelect [['R', 'G'], ['G', 'B']] 'B' = [(1, 1)] := by
  obtain ⟨t, ht⟩ := hpre
  have htake : (stripChars g).take 4 = "RGGB".data := by
    rw [← ht]
    have h4 : (4 : Nat) = ("RGGB".data).length := by decide
    rw [h4, List.take_left]
  refine ⟨?_, by decide, by decide, by decide⟩
  unfold extractBayer
  rw [hs]
  show (do
    let bayer_str := (stripChars g).take 4
    let bp ← reshape2x2 bayer_str
    pure (bayer_str, bp) : Except PyError (List Char × List (List Char))) =
      .ok ("RGGB".data, [['R', 'G'], ['G', 'B']])
  rw [htake]
  decide

/-- C4 witness: the demo `Filter pattern:` line. -/
theorem claim_C4_witness :
    searchAfter "Filter pattern:".data bayerLineDemo = some " RGGBRGGBRGGB".data ∧
    "RGGB".data <+: stripChars " RGGBRGGBRGGB".data ∧
    extractBayer bayerLineDemo = .ok ("RGGB".data, [['R', 'G'], ['G', 'B']]) ∧
    maskSelect [['R', 'G'], ['G', 'B']] 'R' = [(0, 0)] ∧
    maskSelect [['R', 'G'], ['G', 'B']] 'G' = [(0, 1), (1, 0)] ∧
    maskSelect [['R', 'G'], ['G', 'B']] 'B' = [(1, 1)] := by
  have h1 : searchAfter "Filter pattern:".data bayerLineDemo = some " RGGBRGGBRGGB".data := by
    decide
  have h2 : "RGGB".data <+: stripChars " RGGBRGGBRGGB".data := ⟨"RGGBRGGB".data, by decide⟩
  have h := claim_C4 bayerLineDemo " RGGBRGGBRGGB".data h1 h2
  exact ⟨h1, h2, h.1, h.2.1, h.2.2.1, h.2.2.2⟩

/-! Facts about `read_raw` and the FITS assembly. -/

/-- C3 (against the code): for every environment whose source file
exists, the `interpolate=True` decode invokes the external decoder and
then fails with `NameError` — `Image` is never imported by the module —
so no full-color grid is read from the sibling `.ppm` file and
`raw_to_fits` never yields a container in this mode. -/
theorem claim_C3 (env : Env) (h : env.sourceExists = true) :
    read_raw_model env true =
      (.error (.nameError "name Image is not defined"),
        [["dcraw", "-q", "1", "-f", "-v", "-a", env.filename]]) ∧
    ∀ (sc : Bool) hdus log, raw_to_fits_model env sc true ≠ (.ok hdus, log) := by
  have hImage : lookupName "Image" = none := by decide
  have h1 : read_raw_model env true =
      (.error (.nameError "name Image is not defined"),
        [["dcraw", "-q", "1", "-f", "-v", "-a", env.filename]]) := by
    unfold read_raw_model
    rw [h, hImage]
    simp
  refine ⟨h1, ?_⟩
  intro sc hdus log hc
  unfold raw_to_fits_model at hc
  rw [h1] at hc
  simp at hc

/-- C3 witness: the demo environment with an existing source file. -/
theorem claim_C3_witness :
    envDemo.sourceExists = true ∧
    read_raw_model envDemo true =
      (.error (.nameError "name Image is not defined"),
        [["dcraw", "-q", "1", "-f", "-v", "-a", envDemo.filename]]) ∧
    ∀ (sc : Bool) hdus log, raw_to_fits_model envDemo sc true ≠ (.ok hdus, log) :=
  ⟨rfl, (claim_C3 envDemo rfl).1, (claim_C3 envDemo rfl).2⟩

/-- C8: when the source file does not exist, `read_raw` (and hence
`raw_to_fits`) fails with the `IOError` and the external-invocation log
is empty: the existence check precedes every decoder invocation. -/
theorem claim_C8 (env : Env) (interp sc : Bool) (h : env.sourceExists = false) :
    read_raw_model env interp =
      (.error (.ioError ("File " ++ env.filename ++ " does not exist!")), []) ∧
    raw_to_fits_model env sc interp =
      (.error (.ioError ("File " ++ env.filename ++ " does not exist!")), []) := by
  have h1 : read_raw_model env interp =
      (.error (.ioError ("File " ++ env.filename ++ " does not exist!")), []) := by
    unfold read_raw_model
    rw [h]
    rfl
  refine ⟨h1, ?_⟩
  unfold raw_to_fits_model
  rw [h1]

/-- C8 witness: the demo environment with a missing source file. -/
theorem claim_C8_witness :
    envMissingDemo.sourceExists = false ∧
    read_raw_model envMissingDemo false =
      (.error (.ioError ("File " ++ envMissingDemo.filename ++ " does not exist!")), []) ∧
    raw_to_fits_model envMissingDemo true false =
      (.error (.ioError ("File " ++ envMissingDemo.filename ++ " does not exist!")), []) :=
  ⟨rfl, (claim_C8 envMissingDemo false true rfl).1, (claim_C8 envMissingDemo false true rfl).2⟩

theorem maskSelect_count (a b c d : Char) (ch : Char) :
    (maskSelect [[a, b], [c, d]] ch).length = [a, b, c, d].count ch := by
  by_cases ha : a = ch <;> by_cases hb : b = ch <;> by_cases hc : c = ch <;>
    by_cases hd : d = ch <;>
    simp [maskSelect, splitMapFlat, List.count_cons, ha, hb, hc, hd]

/-- C9: the two flags select the output shape: `interpolate=True` gives
one unit whatever `split_channels` is; `interpolate=False` with
`split_channels=True` gives the four units `R`, `G1`, `G2`, `B`, each
with a `FILTER` header field; both flags false give one unit, and only
that unit carries the explanatory `BAYERPA` comment. -/
theorem claim_C9 (raw : List (List Nat)) (md : CaptureMetadata) (a b c d : Char)
    (hbp : md.bayer_pattern = [[a, b], [c, d]])
    (hR : [a, b, c, d].count 'R' = 1) (hG : [a, b, c, d].count 'G' = 2)
    (hB : [a, b, c, d].count 'B' = 1) :
    (∀ sc : Bool, assembleHDUs raw md sc true = .ok [update_header md ⟨raw, [], []⟩] ∧
      "BAYERPA is the Bayer filter pattern" ∉ (update_header md ⟨raw, [], []⟩).comments) ∧
    (∃ u1 u2 u3 u4 : HDU, assembleHDUs raw md true false = .ok [u1, u2, u3, u4] ∧
      ("FILTER", "R".data) ∈ u1.header ∧ ("FILTER", "G1".data) ∈ u2.header ∧
      ("FILTER", "G2".data) ∈ u3.header ∧ ("FILTER", "B".data) ∈ u4.header ∧
      "BAYERPA is the Bayer filter pattern" ∉ u1.comments ∧
      "BAYERPA is the Bayer filter pattern" ∉ u2.comments ∧
      "BAYERPA is the Bayer filter pattern" ∉ u3.comments ∧
      "BAYERPA is the Bayer filter pattern" ∉ u4.comments) ∧
    (∃ u : HDU, assembleHDUs raw md false false = .ok [u] ∧
      "BAYERPA is the Bayer filter pattern" ∈ u.comments) := by
  refine ⟨fun sc => ⟨rfl, by simp [update_header]⟩, ?_, ⟨_, rfl, by simp [update_header]⟩⟩
  obtain ⟨pR, pG1, pG2, pB, hmR, hmG, hmB, -⟩ := offsets_of_counts a b c d hR hG hB
  refine ⟨addFilter "R" (update_header md ⟨stride2 raw pR.1 pR.2, [], []⟩),
    addFilter "G1" (update_header md ⟨stride2 raw pG1.1 pG1.2, [], []⟩),
    addFilter "G2" (update_header md ⟨stride2 raw pG2.1 pG2.2, [], []⟩),
    addFilter "B" (update_header md ⟨stride2 raw pB.1 pB.2, [], []⟩),
    ?_, by simp [addFilter], by simp [addFilter], by simp [addFilter], by simp [addFilter],
    by simp [addFilter, update_header], by simp [addFilter, update_header],
    by simp [addFilter, update_header], by simp [addFilter, update_header]⟩
  show assembleHDUs raw md true false = _
  unfold assembleHDUs
  rw [hbp, hmR, hmG, hmB]
  rfl

/-- C9 witness: the demo grid and the `RGGB` metadata record. -/
theorem claim_C9_witness :
    mdDemo.bayer_pattern = [['R', 'G'], ['G', 'B']] ∧
    ((∀ sc : Bool, assembleHDUs gridDemo mdDemo sc true =
        .ok [update_header mdDemo ⟨gridDemo, [], []⟩] ∧
      "BAYERPA is the Bayer filter pattern" ∉
        (update_header mdDemo ⟨gridDemo, [], []⟩).comments) ∧
    (∃ u1 u2 u3 u4 : HDU, assembleHDUs gridDemo mdDemo true false = .ok [u1, u2, u3, u4] ∧
      ("FILTER", "R".data) ∈ u1.header ∧ ("FILTER", "G1".data) ∈ u2.header ∧
      ("FILTER", "G2".data) ∈ u3.header ∧ ("FILTER", "B".data) ∈ u4.header ∧
      "BAYERPA is the Bayer filter pattern" ∉ u1.comments ∧
      "BAYERPA is the Bayer filter pattern" ∉ u2.comments ∧
      "BAYERPA is the Bayer filter pattern" ∉ u3.comments ∧
      "BAYERPA is the Bayer filter pattern" ∉ u4.comments) ∧
    (∃ u : HDU, assembleHDUs gridDemo mdDemo false false = .ok [u] ∧
      "BAYERPA is the Bayer filter pattern" ∈ u.comments)) :=
  ⟨rfl, claim_C9 gridDemo mdDemo 'R' 'G' 'G' 'B' rfl (by decide) (by decide) (by decide)⟩

/-- C10: a Bayer arrangement with no `R`, no `B`, or fewer than two `G`
entries makes the split-channels path fail with an `IndexError` while
selecting the tile offsets, so no output container is produced. -/
theorem claim_C10 (raw : List (List Nat)) (md : CaptureMetadata) (a b c d : Char)
    (hbp : md.bayer_pattern = [[a, b], [c, d]])
    (hbad : [a, b, c, d].count 'R' = 0 ∨ [a, b, c, d].count 'B' = 0 ∨
      [a, b, c, d].count 'G' < 2) :
    assembleHDUs raw md true false = .error (.indexError "list index out of range") := by
  have hR := maskSelect_count a b c d 'R'
  have hG := maskSelect_count a b c d 'G'
  have hB := maskSelect_count a b c d 'B'
  unfold assembleHDUs
  rw [hbp]
  rcases hmr : maskSelect [[a, b], [c, d]] 'R' with _ | ⟨r0, rs⟩
  · simp [pyIndex, Bind.bind, Except.bind]
  · rcases hmg : maskSelect [[a, b], [c, d]] 'G' with _ | ⟨g0, gs⟩
    · simp [pyIndex, Bind.bind, Except.bind, hmg]
    · rcases gs with _ | ⟨g1, gs2⟩
      · simp [pyIndex, Bind.bind, Except.bind, hmg]
      · rcases hmb : maskSelect [[a, b], [c, d]] 'B' with _ | ⟨b0, bs⟩
        · simp [pyIndex, Bind.bind, Except.bind, hmg, hmb]
        · exfalso
          rw [hmr] at hR
          rw [hmg] at hG
          rw [hmb] at hB
          simp at hR hG hB
          rcases hbad with hx | hx | hx <;> omega

/-- C10 witness: the all-green arrangement. -/
theorem claim_C10_witness :
    mdAllGreenDemo.bayer_pattern = [['G', 'G'], ['G', 'G']] ∧
    assembleHDUs gridDemo mdAllGreenDemo true false =
      .error (.indexError "list index out of range") :=
  ⟨rfl, claim_C10 gridDemo mdAllGreenDemo 'G' 'G' 'G' 'G' rfl (Or.inl (by decide))⟩

end PyRaw
